import Mathlib

/-!
Verification of the email-attachment ingestion pipeline
(`fileProcessor` repository) against its natural-language specification.

The Python source is shallowly embedded: pure data-manipulating code
becomes Lean functions over explicit state; network and file-system
effects become explicit environment parameters (scripts of responses,
success flags); machine byte strings become `List Nat` with values
below 256; exceptions become `Except` values or early returns, exactly
mirroring the `try/except` structure of the source.
-/

namespace FileProc

/-! ## Base64 (model of Python's `base64.b64encode` / `b64decode`)

`redis_queue.py` serializes attachment bytes with standard base64.
We model bytes as natural numbers below 256 and the encoded text as a
list of characters over the standard alphabet with `=` padding. -/

def b64Alphabet : List Char :=
  ['A','B','C','D','E','F','G','H','I','J','K','L','M',
   'N','O','P','Q','R','S','T','U','V','W','X','Y','Z',
   'a','b','c','d','e','f','g','h','i','j','k','l','m',
   'n','o','p','q','r','s','t','u','v','w','x','y','z',
   '0','1','2','3','4','5','6','7','8','9','+','/']

def sextetToChar (n : Nat) : Char := b64Alphabet.getD n '?'

def charToSextet (c : Char) : Nat := b64Alphabet.indexOf c

def b64encode : List Nat → List Char
  | [] => []
  | [b0] =>
    [sextetToChar (b0 / 4), sextetToChar (b0 % 4 * 16), '=', '=']
  | [b0, b1] =>
    [sextetToChar (b0 / 4), sextetToChar (b0 % 4 * 16 + b1 / 16),
     sextetToChar (b1 % 16 * 4), '=']
  | b0 :: b1 :: b2 :: rest =>
    sextetToChar (b0 / 4) :: sextetToChar (b0 % 4 * 16 + b1 / 16) ::
    sextetToChar (b1 % 16 * 4 + b2 / 64) :: sextetToChar (b2 % 64) ::
    b64encode rest

def b64decode : List Char → List Nat
  | c0 :: c1 :: c2 :: c3 :: rest =>
    let s0 := charToSextet c0
    let s1 := charToSextet c1
    if c2 = '=' then
      [s0 * 4 + s1 / 16]
    else
      let s2 := charToSextet c2
      if c3 = '=' then
        [s0 * 4 + s1 / 16, s1 % 16 * 16 + s2 / 4]
      else
        (s0 * 4 + s1 / 16) :: (s1 % 16 * 16 + s2 / 4) ::
        (s2 % 4 * 64 + charToSextet c3) :: b64decode rest
  | _ => []

lemma mulAdd_div (m x y : Nat) (hm : 0 < m) (hy : y < m) :
    (x * m + y) / m = x := by
  rw [Nat.mul_comm, Nat.mul_add_div hm, Nat.div_eq_of_lt hy, Nat.add_zero]

lemma mulAdd_mod (m x y : Nat) (hy : y < m) : (x * m + y) % m = y := by
  rw [Nat.mul_comm, Nat.mul_add_mod, Nat.mod_eq_of_lt hy]

lemma charToSextet_sextetToChar_mem :
    ∀ n ∈ List.range 64, charToSextet (sextetToChar n) = n := by decide

lemma sextetToChar_ne_eq_mem :
    ∀ n ∈ List.range 64, sextetToChar n ≠ '=' := by decide

lemma charToSextet_sextetToChar {n : Nat} (h : n < 64) :
    charToSextet (sextetToChar n) = n :=
  charToSextet_sextetToChar_mem n (List.mem_range.mpr h)

lemma sextetToChar_ne_eq {n : Nat} (h : n < 64) : sextetToChar n ≠ '=' :=
  sextetToChar_ne_eq_mem n (List.mem_range.mpr h)

theorem b64_roundtrip :
    ∀ (l : List Nat), (∀ b ∈ l, b < 256) → b64decode (b64encode l) = l
  | [], _ => rfl
  | [b0], h => by
    have hb0 : b0 < 256 := h b0 (by simp)
    have h1 : b0 / 4 < 64 := by omega
    have h2 : b0 % 4 * 16 < 64 := by omega
    have e1 : b0 % 4 * 16 / 16 = b0 % 4 := Nat.mul_div_cancel _ (by norm_num)
    simp [b64encode, b64decode, charToSextet_sextetToChar h1,
      charToSextet_sextetToChar h2, e1]
    omega
  | [b0, b1], h => by
    have hb0 : b0 < 256 := h b0 (by simp)
    have hb1 : b1 < 256 := h b1 (by simp)
    have h1 : b0 / 4 < 64 := by omega
    have h2 : b0 % 4 * 16 + b1 / 16 < 64 := by omega
    have h3 : b1 % 16 * 4 < 64 := by omega
    have e1 : (b0 % 4 * 16 + b1 / 16) / 16 = b0 % 4 :=
      mulAdd_div 16 (b0 % 4) (b1 / 16) (by norm_num) (by omega)
    have e2 : (b0 % 4 * 16 + b1 / 16) % 16 = b1 / 16 :=
      mulAdd_mod 16 (b0 % 4) (b1 / 16) (by omega)
    have e3 : b1 % 16 * 4 / 4 = b1 % 16 := Nat.mul_div_cancel _ (by norm_num)
    simp [b64encode, b64decode, if_neg (sextetToChar_ne_eq h3),
      charToSextet_sextetToChar h1, charToSextet_sextetToChar h2,
      charToSextet_sextetToChar h3, e1, e2, e3]
    omega
  | b0 :: b1 :: b2 :: rest, h => by
    have hb0 : b0 < 256 := h b0 (by simp)
    have hb1 : b1 < 256 := h b1 (by simp)
    have hb2 : b2 < 256 := h b2 (by simp)
    have h1 : b0 / 4 < 64 := by omega
    have h2 : b0 % 4 * 16 + b1 / 16 < 64 := by omega
    have h3 : b1 % 16 * 4 + b2 / 64 < 64 := by omega
    have h4 : b2 % 64 < 64 := by omega
    have e1 : (b0 % 4 * 16 + b1 / 16) / 16 = b0 % 4 :=
      mulAdd_div 16 (b0 % 4) (b1 / 16) (by norm_num) (by omega)
    have e2 : (b0 % 4 * 16 + b1 / 16) % 16 = b1 / 16 :=
      mulAdd_mod 16 (b0 % 4) (b1 / 16) (by omega)
    have e4 : (b1 % 16 * 4 + b2 / 64) / 4 = b1 % 16 :=
      mulAdd_div 4 (b1 % 16) (b2 / 64) (by norm_num) (by omega)
    have e5 : (b1 % 16 * 4 + b2 / 64) % 4 = b2 / 64 :=
      mulAdd_mod 4 (b1 % 16) (b2 / 64) (by omega)
    have ih : b64decode (b64encode rest) = rest :=
      b64_roundtrip rest (fun b hb => h b (by simp [hb]))
    simp [b64encode, b64decode, if_neg (sextetToChar_ne_eq h3),
      if_neg (sextetToChar_ne_eq h4), charToSextet_sextetToChar h1,
      charToSextet_sextetToChar h2, charToSextet_sextetToChar h3,
      charToSextet_sextetToChar h4, e1, e2, e4, e5, ih]
    omega

/-! ## Filename helpers (model of `os.path.splitext(...)[1].lower()`) -/

/-- Positions of the dots of a character list. -/
def dotPositions (s : List Char) : List Nat :=
  (List.range s.length).filter (fun i => s.getD i ' ' = '.')

/-- The extension (with its dot) in Python's `os.path.splitext` sense:
the suffix from the last dot, empty when the name consists only of
leading dots up to that point (e.g. `.bashrc` has no extension). -/
def splitextExt (s : List Char) : List Char :=
  match (dotPositions s).getLast? with
  | none => []
  | some i => if (s.take i).any (fun c => c ≠ '.') then s.drop i else []

/-- `os.path.splitext(name)[1].lower()` on a `String`. -/
def extLower (name : String) : String :=
  String.mk ((splitextExt name.toList).map Char.toLower)

/-- Python's `needle in haystack` substring test on character lists. -/
def isSubstr : List Char → List Char → Bool
  | n, [] => n.isEmpty
  | n, c :: t => List.isPrefixOf n (c :: t) || isSubstr n t

/-! ## `EmailAttachmentData` and its serialization (`app/redis_queue.py`)

`attachment_content` is a Python `bytes` value, modelled as a list of
naturals below 256.  `to_dict` base64-encodes the content; `from_dict`
decodes it back.  The dictionary produced by `to_dict` has a fixed key
set, modelled as a structure. -/

structure EmailAttachmentData where
  task_id : String
  email_id : String
  email_subject : String
  email_sender : String
  email_sender_email : String
  email_content : String
  email_received_date : String
  attachment_id : String
  attachment_filename : String
  attachment_content : List Nat
  attachment_mime_type : String
  attachment_size : Nat
  created_at : String
deriving DecidableEq, Repr

structure AttachmentDict where
  task_id : String
  email_id : String
  email_subject : String
  email_sender : String
  email_sender_email : String
  email_content : String
  email_received_date : String
  attachment_id : String
  attachment_filename : String
  attachment_content_b64 : List Char
  attachment_mime_type : String
  attachment_size : Nat
  created_at : String
deriving DecidableEq, Repr

def EmailAttachmentData.to_dict (d : EmailAttachmentData) : AttachmentDict :=
  { task_id := d.task_id
    email_id := d.email_id
    email_subject := d.email_subject
    email_sender := d.email_sender
    email_sender_email := d.email_sender_email
    email_content := d.email_content
    email_received_date := d.email_received_date
    attachment_id := d.attachment_id
    attachment_filename := d.attachment_filename
    attachment_content_b64 := b64encode d.attachment_content
    attachment_mime_type := d.attachment_mime_type
    attachment_size := d.attachment_size
    created_at := d.created_at }

def EmailAttachmentData.from_dict (data : AttachmentDict) : EmailAttachmentData :=
  { task_id := data.task_id
    email_id := data.email_id
    email_subject := data.email_subject
    email_sender := data.email_sender
    email_sender_email := data.email_sender_email
    email_content := data.email_content
    email_received_date := data.email_received_date
    attachment_id := data.attachment_id
    attachment_filename := data.attachment_filename
    attachment_content := b64decode data.attachment_content_b64
    attachment_mime_type := data.attachment_mime_type
    attachment_size := data.attachment_size
    created_at := data.created_at }

/-! ## `RedisEmailQueue` (`app/redis_queue.py`)

The backing Redis list is modelled as a `List AttachmentDict`; `LPUSH`
prepends.  `enqueue_attachment` rejects oversized items and enqueues
nothing once the list has reached `max_queue_size`. -/

structure QueueConfig where
  max_queue_size : Nat
  max_attachment_size : Nat
deriving DecidableEq, Repr

def enqueue_attachment (cfg : QueueConfig) (q : List AttachmentDict)
    (a : EmailAttachmentData) : Bool × List AttachmentDict :=
  if a.attachment_size > cfg.max_attachment_size then (false, q)
  else if q.length ≥ cfg.max_queue_size then (false, q)
  else (true, a.to_dict :: q)

/-- `enqueue_multiple_attachments`: validates each item's size
independently; builds a pipeline of `LPUSH`es for the valid ones; if
the batch would exceed `max_queue_size` it drops the pipeline and
enqueues the valid items one by one through `enqueue_attachment`;
otherwise it executes the pipeline (every `LPUSH` returns a positive
new length, so the count of truthy results is the number of valid
items). -/
def enqueueStep (cfg : QueueConfig) (acc : Nat × List AttachmentDict)
    (a : EmailAttachmentData) : Nat × List AttachmentDict :=
  let r := enqueue_attachment cfg acc.2 a
  (acc.1 + (if r.1 then 1 else 0), r.2)

def enqueue_multiple_attachments (cfg : QueueConfig)
    (q : List AttachmentDict) (atts : List EmailAttachmentData) :
    Nat × List AttachmentDict :=
  let valid := atts.filter (fun a => a.attachment_size ≤ cfg.max_attachment_size)
  if q.length + valid.length > cfg.max_queue_size then
    valid.foldl (enqueueStep cfg) (0, q)
  else
    (valid.length, valid.foldl (fun l a => a.to_dict :: l) q)

/-! ## `GraphEmailClient` (`app/main.py`)

The client state holds the access token, the in-memory delta link and
the persisted delta-link file (`delta_link.txt`).  The network is a
script: the list of successive responses the pagination loop would
receive.  Python truthiness of optional strings is modelled by
`otruthy` (absent or empty strings are falsy). -/

structure GraphMsg where
  id : String
  removed : Bool
  sender : String
  senderName : String
  hasAttachments : Bool
  subject : String
  bodyText : String
  receivedDate : String
deriving DecidableEq, Repr

structure Page where
  value : List GraphMsg
  nextLink : Option String
  deltaLink : Option String
deriving DecidableEq, Repr

inductive FetchResult where
  | page (p : Page)
  | fetchError
deriving DecidableEq, Repr

structure ClientState where
  accessToken : Option String
  deltaLink : Option String
  deltaFile : Option String
deriving DecidableEq, Repr

def otruthy : Option String → Bool
  | none => false
  | some s => !s.isEmpty

/-- `_save_delta_link`: writes the in-memory delta link to the file,
only when it is truthy. -/
def save_delta_link (st : ClientState) : ClientState :=
  if otruthy st.deltaLink then { st with deltaFile := st.deltaLink } else st

/-- One page's message filtering: drop `@removed` entries, then apply
the case-insensitive sender substring filter when both the group list
and the page's message list are non-empty. -/
def pageMessages (groups : List String) (p : Page) : List GraphMsg :=
  let msgs := p.value.filter (fun m => !m.removed)
  if !groups.isEmpty && !msgs.isEmpty then
    msgs.filter (fun m =>
      groups.any (fun g => isSubstr g.toLower.toList m.sender.toLower.toList))
  else msgs

/-- The pagination loop of `get_new_messages`.  Consuming the script's
responses in order: a `fetchError` (or running off the script, i.e. no
response to a pending request) is the `except` branch returning `[]`
with the state untouched; a truthy `deltaLink` stores and persists the
new cursor and breaks; a truthy `nextLink` continues; otherwise break. -/
def sweepLoop (st : ClientState) (groups : List String) :
    List FetchResult → List GraphMsg → List GraphMsg × ClientState
  | [], _acc => ([], st)
  | .fetchError :: _, _acc => ([], st)
  | .page p :: rest, acc =>
    let acc' := acc ++ pageMessages groups p
    if otruthy p.deltaLink then
      (acc', save_delta_link { st with deltaLink := p.deltaLink })
    else if otruthy p.nextLink then
      sweepLoop st groups rest acc'
    else
      (acc', st)

/-- `get_new_messages`: returns `[]` immediately when no access token
is held, otherwise runs the pagination sweep. -/
def get_new_messages (st : ClientState) (groups : List String)
    (script : List FetchResult) : List GraphMsg × ClientState :=
  if st.accessToken.isSome then sweepLoop st groups script [] else ([], st)

/-- `get_attachments`: `[]` without a token; on a response, the value
list; on an HTTP error, `[]`. -/
def get_attachments (st : ClientState) {α : Type}
    (resp : Except Unit (List α)) : List α :=
  if st.accessToken.isSome then
    match resp with
    | .ok l => l
    | .error _ => []
  else []

/-- `download_attachment`: empty bytes without a token; on an HTTP
error, empty bytes. -/
def download_attachment (st : ClientState)
    (resp : Except Unit (List Nat)) : List Nat :=
  if st.accessToken.isSome then
    match resp with
    | .ok bs => bs
    | .error _ => []
  else []

/-- Spec-side classification of a response script: does the sweep fail,
end without a new cursor, or end with a terminal truthy `deltaLink`? -/
inductive SweepOutcome where
  | failed
  | noDelta
  | delta (d : String)
deriving DecidableEq, Repr

def scriptOutcome : List FetchResult → SweepOutcome
  | [] => .failed
  | .fetchError :: _ => .failed
  | .page p :: rest =>
    if otruthy p.deltaLink then .delta (p.deltaLink.getD "")
    else if otruthy p.nextLink then scriptOutcome rest
    else .noDelta

/-! ## `EmailMonitor` (`app/main.py`)

The ingestion loop.  Non-deterministic inputs of one cycle — download
results, `uuid4` draws, `datetime.now()` strings, MIME guesses and the
attachment listing per message — are supplied by environments. -/

structure AttRef where
  name : String
  id : String
deriving DecidableEq, Repr

structure MonEnv where
  download : AttRef → List Nat
  mimeGuess : AttRef → Option String
  dateStr : String
  fileUuid : AttRef → String
  taskUuid : AttRef → String
  summaryUuid : String
  nowIso : String

structure MonConfig where
  emailGroups : List String
  fileTypes : List String
  useRedisQueue : Bool
  queueCfg : QueueConfig
deriving DecidableEq, Repr

/-- The extension allow-list filter: an empty configured list accepts
every extension. -/
def passesFilter (fileTypes : List String) (a : AttRef) : Bool :=
  fileTypes.isEmpty || fileTypes.contains (extLower a.name)

/-- An attachment is handled when it passes the extension filter and
its download yields non-empty bytes. -/
def qualifies (fileTypes : List String) (env : MonEnv) (a : AttRef) : Bool :=
  passesFilter fileTypes a && !(env.download a).isEmpty

/-- The hard-coded extension→MIME fallback table of
`_enqueue_attachments_to_redis`. -/
def extToMimeFallback (ext : String) : String :=
  if ext = ".pdf" then "application/pdf"
  else if ext = ".docx" then
    "application/vnd.openxmlformats-officedocument.wordprocessingml.document"
  else if ext = ".xlsx" then
    "application/vnd.openxmlformats-officedocument.spreadsheetml.sheet"
  else if ext = ".csv" then "text/csv"
  else if ext = ".txt" then "text/plain"
  else if ext = ".jpg" then "image/jpeg"
  else if ext = ".jpeg" then "image/jpeg"
  else if ext = ".png" then "image/png"
  else "application/octet-stream"

def mimeFor (env : MonEnv) (a : AttRef) : String :=
  match env.mimeGuess a with
  | some m => m
  | none => extToMimeFallback (extLower a.name)

/-! ### Direct mode (`_process_attachments_directly`)

The source saves each downloaded attachment under
`{date}_{uuid8}_{original name}` and deliberately skips content
processing (`processing_method` is the literal `"file_save"`); after
the loop it writes one processing-summary JSON when at least one
attachment was processed.  No other artifact is produced. -/

structure ProcessedInfo where
  original_filename : String
  saved_filename : String
  file_type : String
  file_size : Nat
  processing_method : String
  errors : List String
deriving DecidableEq, Repr

def uniqueName (env : MonEnv) (a : AttRef) : String :=
  env.dateStr ++ "_" ++ env.fileUuid a ++ "_" ++ a.name

def mkProcessedInfo (env : MonEnv) (a : AttRef) : ProcessedInfo :=
  { original_filename := a.name
    saved_filename := uniqueName env a
    file_type := extLower a.name
    file_size := (env.download a).length
    processing_method := "file_save"
    errors := [] }

def directLoop (fileTypes : List String) (env : MonEnv) :
    List AttRef → List (String × List Nat) × List ProcessedInfo × Nat
  | [] => ([], [], 0)
  | a :: rest =>
    if passesFilter fileTypes a then
      let data := env.download a
      if data.isEmpty then directLoop fileTypes env rest
      else
        let r := directLoop fileTypes env rest
        ((uniqueName env a, data) :: r.1,
         mkProcessedInfo env a :: r.2.1, r.2.2 + 1)
    else directLoop fileTypes env rest

structure DirectOutcome where
  savedFiles : List (String × List Nat)
  processedAttachments : List ProcessedInfo
  processedCount : Nat
  summaryArtifact : Option String
deriving DecidableEq, Repr

def process_attachments_directly (fileTypes : List String) (env : MonEnv)
    (msgId : String) (atts : List AttRef) : DirectOutcome :=
  let r := directLoop fileTypes env atts
  { savedFiles := r.1
    processedAttachments := r.2.1
    processedCount := r.2.2
    summaryArtifact :=
      if r.2.2 > 0 then
        some (env.dateStr ++ "_" ++ env.summaryUuid ++
          "_processing_summary_" ++ msgId.take 8 ++ ".json")
      else none }

/-- Every file name the direct-mode handler persists for one message:
the saved attachments plus the optional summary JSON. -/
def directArtifactNames (o : DirectOutcome) : List String :=
  o.savedFiles.map Prod.fst ++ o.summaryArtifact.toList

/-! ### Queue mode (`_enqueue_attachments_to_redis`) -/

structure MsgCtx where
  msgId : String
  subject : String
  senderName : String
  senderEmail : String
  content : String
  receivedDate : String
deriving DecidableEq, Repr

def mkTask (env : MonEnv) (ctx : MsgCtx) (a : AttRef) : EmailAttachmentData :=
  { task_id := ctx.msgId.take 8 ++ "_" ++ a.id.take 8 ++ "_" ++ env.taskUuid a
    email_id := ctx.msgId
    email_subject := ctx.subject
    email_sender := ctx.senderName
    email_sender_email := ctx.senderEmail
    email_content := ctx.content
    email_received_date := ctx.receivedDate
    attachment_id := a.id
    attachment_filename := a.name
    attachment_content := env.download a
    attachment_mime_type := mimeFor env a
    attachment_size := (env.download a).length
    created_at := env.nowIso }

def buildAttachmentTasks (fileTypes : List String) (env : MonEnv)
    (ctx : MsgCtx) : List AttRef → List EmailAttachmentData
  | [] => []
  | a :: rest =>
    if passesFilter fileTypes a then
      if (env.download a).isEmpty then buildAttachmentTasks fileTypes env ctx rest
      else mkTask env ctx a :: buildAttachmentTasks fileTypes env ctx rest
    else buildAttachmentTasks fileTypes env ctx rest

def enqueue_attachments_to_redis (cfg : QueueConfig) (fileTypes : List String)
    (env : MonEnv) (ctx : MsgCtx) (atts : List AttRef)
    (q : List AttachmentDict) : Nat × List AttachmentDict × Option String :=
  let tasks := buildAttachmentTasks fileTypes env ctx atts
  if tasks.isEmpty then (0, q, none)
  else
    let r := enqueue_multiple_attachments cfg q tasks
    (r.1, r.2,
     some (env.dateStr ++ "_" ++ env.summaryUuid ++ "_enqueue_summary_" ++
       ctx.msgId.take 8 ++ ".json"))

/-! ### The processing cycle (`process_emails` / `_process_message`) -/

structure Stats where
  total_runs : Nat
  messages_processed : Nat
  attachments_processed : Nat
  attachments_queued : Nat
  queue_errors : Nat
  errors : Nat
deriving DecidableEq, Repr

structure MonitorState where
  stats : Stats
  client : ClientState
  queue : List AttachmentDict
deriving DecidableEq, Repr

structure CycleEnv where
  authOk : Bool
  script : List FetchResult
  attachmentsOf : String → List AttRef
  mon : MonEnv

def msgCtxOf (m : GraphMsg) : MsgCtx :=
  { msgId := m.id, subject := m.subject, senderName := m.senderName
    senderEmail := m.sender, content := m.bodyText
    receivedDate := m.receivedDate }

/-- `_process_message`: skip messages without attachments, then either
enqueue to Redis or process directly, updating the corresponding
counters. -/
def process_message (cfg : MonConfig) (env : CycleEnv) (m : GraphMsg)
    (acc : Stats × List AttachmentDict × List DirectOutcome) :
    Stats × List AttachmentDict × List DirectOutcome :=
  if !m.hasAttachments then acc
  else
    let atts := env.attachmentsOf m.id
    if atts.isEmpty then acc
    else if cfg.useRedisQueue then
      let r := enqueue_attachments_to_redis cfg.queueCfg cfg.fileTypes env.mon
        (msgCtxOf m) atts acc.2.1
      ({ acc.1 with attachments_queued := acc.1.attachments_queued + r.1 },
       r.2.1, acc.2.2)
    else
      let o := process_attachments_directly cfg.fileTypes env.mon m.id atts
      ({ acc.1 with attachments_processed :=
          acc.1.attachments_processed + o.processedCount },
       acc.2.1, acc.2.2 ++ [o])

/-- `process_emails`: authenticate (abort the cycle on failure,
counting one error), fetch new messages, process each message in
order, then add the message count to `messages_processed` and bump
`total_runs`. -/
def process_emails (cfg : MonConfig) (env : CycleEnv) (st : MonitorState) :
    MonitorState × List DirectOutcome :=
  if !env.authOk then
    ({ st with stats := { st.stats with errors := st.stats.errors + 1 } }, [])
  else
    let cs := { st.client with accessToken := some "token" }
    let fetched := get_new_messages cs cfg.emailGroups env.script
    let msgs := fetched.1
    let folded := msgs.foldl (fun acc m => process_message cfg env m acc)
      (st.stats, st.queue, [])
    let stats1 :=
      if msgs.isEmpty then folded.1
      else { folded.1 with messages_processed :=
              folded.1.messages_processed + msgs.length }
    ({ stats := { stats1 with total_runs := stats1.total_runs + 1 }
       client := fetched.2
       queue := folded.2.1 }, folded.2.2)

/-! ## `AttachmentWorker` (`attachment_worker.py`)

### `_run_pipeline`: bounded retry with exponential backoff

`fails n` tells whether the attempt made at `retry_count = n` raises.
The loop body is replayed with explicit fuel (`maxRetries + 1 - retryCount`
iterations always suffice, and the fuel we pass is exactly that bound,
so the out-of-fuel branch is never taken). -/

structure RunResult where
  attempts : Nat
  delays : List Nat
  success : Bool
deriving DecidableEq, Repr

def runPipelineLoop (fails : Nat → Bool) (maxRetries : Nat) :
    Nat → Nat → RunResult
  | 0, _ => { attempts := 0, delays := [], success := false }
  | fuel + 1, retryCount =>
    if retryCount ≤ maxRetries then
      if fails retryCount then
        if maxRetries < retryCount + 1 then
          { attempts := 1, delays := [], success := false }
        else
          let r := runPipelineLoop fails maxRetries fuel (retryCount + 1)
          { attempts := r.attempts + 1
            delays := 2 ^ (retryCount + 1) :: r.delays
            success := r.success }
      else { attempts := 1, delays := [], success := true }
    else { attempts := 0, delays := [], success := false }

/-- `_run_pipeline`: starts at `retry_count = 0`; `success = false`
means the final `raise` escaped the loop. `delays` lists the
`asyncio.sleep(2 ** retry_count)` pauses between consecutive attempts. -/
def run_pipeline (fails : Nat → Bool) (maxRetries : Nat) : RunResult :=
  runPipelineLoop fails maxRetries (maxRetries + 1) 0

/-! ### `_process_attachment`: scoped temporary file

The `try/finally` around the pipeline call guarantees the temporary
file is unlinked on the success path, on a pipeline exception (the
outer `except` then returns `False`), and regardless of whether
`_save_processing_results` managed to write (it catches its own
errors and never raises). -/

structure WorkerFS where
  tempExists : Bool
  resultSaved : Bool
deriving DecidableEq, Repr

structure WorkerEnv where
  saveTempOk : Bool
  pipelineRaises : Bool
  saveResultsOk : Bool
deriving DecidableEq, Repr

def save_processing_results (env : WorkerEnv) (fs : WorkerFS) : WorkerFS :=
  if env.saveResultsOk then { fs with resultSaved := true } else fs

def unlinkTemp (fs : WorkerFS) : WorkerFS :=
  if fs.tempExists then { fs with tempExists := false } else fs

def process_attachment (env : WorkerEnv) : Bool × WorkerFS :=
  if env.saveTempOk then
    let fs1 : WorkerFS := { tempExists := true, resultSaved := false }
    if env.pipelineRaises then
      (false, unlinkTemp fs1)
    else
      let fs2 := save_processing_results env fs1
      (true, unlinkTemp fs2)
  else (false, { tempExists := false, resultSaved := false })

/-! ## `AttachmentReader.read_attachment` (`file_processor.py`)

The whole body is wrapped in one `try/except` that appends
`"Processing error: ..."` to the result's `errors` list; the function
always returns the result dictionary.  The environment supplies the
outcome of the temporary-file write and of whichever processor runs
(custom, built-in by the `supported_types` table, or the unknown-type
fallback). -/

structure ExtractedContent where
  text : String
  tables : List (List (List String))
  metadata : List (String × String)
  file_type : String
deriving DecidableEq, Repr

structure ReadResult where
  filename : String
  file_size : Nat
  processed_content : Option ExtractedContent
  processing_method : String
  errors : List String
  metadata : List (String × String)
deriving DecidableEq, Repr

def supportedTypes : List String :=
  [".pdf", ".docx", ".xlsx", ".xls", ".csv", ".txt",
   ".jpg", ".jpeg", ".png", ".tiff", ".bmp"]

structure ReaderEnv where
  tempWrite : Except String Unit
  customExts : List String
  customRun : Except String ExtractedContent
  builtinRun : Except String ExtractedContent
  fallbackRun : Except String ExtractedContent
deriving Repr

/-- Which processor `read_attachment` dispatches to for a filename,
and its scripted outcome. -/
def readDispatch (env : ReaderEnv) (filename : String) :
    Except String ExtractedContent × String :=
  let ext := extLower filename
  if env.customExts.contains ext then (env.customRun, "custom")
  else if supportedTypes.contains ext then (env.builtinRun, "built-in")
  else (env.fallbackRun, "fallback")

def read_attachment (env : ReaderEnv) (attachment_data : List Nat)
    (filename : String) (metadata : List (String × String)) : ReadResult :=
  let base : ReadResult :=
    { filename := filename
      file_size := attachment_data.length
      processed_content := none
      processing_method := "none"
      errors := []
      metadata := metadata }
  match env.tempWrite with
  | .error e => { base with errors := ["Processing error: " ++ e] }
  | .ok _ =>
    match readDispatch env filename with
    | (.ok c, method) =>
      { base with processed_content := some c, processing_method := method }
    | (.error e, _) =>
      { base with errors := ["Processing error: " ++ e] }

/-! ## Claim theorems -/

lemma sweepLoop_outcome (st : ClientState) (groups : List String) :
    ∀ (script : List FetchResult) (acc : List GraphMsg),
    (scriptOutcome script = .failed →
      sweepLoop st groups script acc = ([], st)) ∧
    (scriptOutcome script = .noDelta →
      (sweepLoop st groups script acc).2 = st) ∧
    (∀ d, scriptOutcome script = .delta d →
      (sweepLoop st groups script acc).2 =
        save_delta_link { st with deltaLink := some d } ∧ otruthy (some d)) := by
  intro script
  induction script with
  | nil =>
    intro acc
    refine ⟨fun _ => rfl, fun h => by simp [scriptOutcome] at h, fun d h => ?_⟩
    simp [scriptOutcome] at h
  | cons r rest ih =>
    intro acc
    cases r with
    | fetchError =>
      refine ⟨fun _ => rfl, fun h => by simp [scriptOutcome] at h, fun d h => ?_⟩
      simp [scriptOutcome] at h
    | page p =>
      by_cases hd : otruthy p.deltaLink
      · refine ⟨fun h => ?_, fun h => ?_, fun d h => ?_⟩
        · simp [scriptOutcome, hd] at h
        · simp [scriptOutcome, hd] at h
        · simp only [scriptOutcome, hd, if_true] at h
          cases hdl : p.deltaLink with
          | none => rw [hdl] at hd; simp [otruthy] at hd
          | some s =>
            have hds : d = s := by
              rw [hdl] at h; simp at h; exact h.symm
            subst hds
            rw [hdl] at hd
            constructor
            · simp [sweepLoop, hdl, hd]
            · exact hd
      · by_cases hn : otruthy p.nextLink
        · have hrw : sweepLoop st groups (.page p :: rest) acc
              = sweepLoop st groups rest (acc ++ pageMessages groups p) := by
            simp [sweepLoop, hd, hn]
          have hout : scriptOutcome (.page p :: rest) = scriptOutcome rest := by
            simp [scriptOutcome, hd, hn]
          refine ⟨fun h => ?_, fun h => ?_, fun d h => ?_⟩
          · rw [hrw]; exact (ih _).1 (by rw [← hout]; exact h)
          · rw [hrw]; exact (ih _).2.1 (by rw [← hout]; exact h)
          · rw [hrw]; exact (ih _).2.2 d (by rw [← hout]; exact h)
        · refine ⟨fun h => ?_, fun h => ?_, fun d h => ?_⟩
          · simp [scriptOutcome, hd, hn] at h
          · simp [sweepLoop, hd, hn]
          · simp [scriptOutcome, hd, hn] at h

/-- Claim C1: `get_new_messages` advances the persisted delta cursor
only when the pagination sweep completes successfully with a terminal
`deltaLink`; when any page fetch fails the call returns `[]` with the
previously persisted cursor (and the whole client state) unchanged, and
a sweep that ends without a `deltaLink` also leaves the cursor as it
was. -/
theorem get_new_messages_cursor_atomicity
    (st : ClientState) (groups : List String) (script : List FetchResult)
    (htok : st.accessToken.isSome = true) :
    (scriptOutcome script = .failed →
      get_new_messages st groups script = ([], st)) ∧
    (scriptOutcome script = .noDelta →
      (get_new_messages st groups script).2 = st) ∧
    (∀ d, scriptOutcome script = .delta d →
      (get_new_messages st groups script).2 =
        { st with deltaLink := some d, deltaFile := some d }) := by
  have hs := sweepLoop_outcome st groups script []
  refine ⟨fun h => ?_, fun h => ?_, fun d h => ?_⟩
  · simp only [get_new_messages, htok, if_true]; exact hs.1 h
  · simp only [get_new_messages, htok, if_true]; exact hs.2.1 h
  · simp only [get_new_messages, htok, if_true]
    have := hs.2.2 d h
    rw [this.1, save_delta_link]
    simp [this.2]

def stC1 : ClientState :=
  { accessToken := some "tok", deltaLink := some "old", deltaFile := some "old" }

/-- Witness for C1 at a concrete client state and scripts: a sweep that
fails on its second page leaves the state untouched, and a sweep ending
in a `deltaLink` installs exactly that cursor. -/
theorem get_new_messages_cursor_atomicity_witness :
    get_new_messages stC1 []
        [.page { value := [], nextLink := some "n", deltaLink := none },
         .fetchError] = ([], stC1) ∧
    (get_new_messages stC1 []
        [.page { value := [], nextLink := none, deltaLink := some "new" }]).2
      = { accessToken := some "tok", deltaLink := some "new",
          deltaFile := some "new" } :=
  ⟨(get_new_messages_cursor_atomicity stC1 [] _ rfl).1 (by decide),
   (get_new_messages_cursor_atomicity stC1 [] _ rfl).2.2 "new" (by decide)⟩

/-- Claim C2: the admission boundary of `enqueue_attachment`: an item
of size exactly `max_attachment_size` is accepted (the queue having
room), size `max_attachment_size + 1` is rejected, a queue already at
`max_queue_size` rejects, and a queue at `max_queue_size - 1` accepts
and reaches exactly `max_queue_size`. -/
theorem enqueue_admission_boundary (cfg : QueueConfig)
    (q : List AttachmentDict) (a : EmailAttachmentData) :
    (a.attachment_size = cfg.max_attachment_size →
      q.length < cfg.max_queue_size →
      (enqueue_attachment cfg q a).1 = true) ∧
    (a.attachment_size = cfg.max_attachment_size + 1 →
      (enqueue_attachment cfg q a).1 = false) ∧
    (q.length = cfg.max_queue_size →
      (enqueue_attachment cfg q a).1 = false) ∧
    (1 ≤ cfg.max_queue_size → q.length = cfg.max_queue_size - 1 →
      a.attachment_size ≤ cfg.max_attachment_size →
      (enqueue_attachment cfg q a).1 = true ∧
      (enqueue_attachment cfg q a).2.length = cfg.max_queue_size) := by
  refine ⟨fun hs hl => ?_, fun hs => ?_, fun hl => ?_, fun h1 hl hs => ?_⟩
  · simp [enqueue_attachment, hs, Nat.not_lt.mpr (Nat.le_refl _), hl,
      Nat.not_le.mpr hl]
  · simp [enqueue_attachment, hs]
  · by_cases hs : a.attachment_size > cfg.max_attachment_size
    · simp [enqueue_attachment, hs]
    · simp [enqueue_attachment, hs, hl]
  · have hlt : q.length < cfg.max_queue_size := by omega
    constructor
    · simp [enqueue_attachment, Nat.not_lt.mpr hs, Nat.not_le.mpr hlt]
    · simp [enqueue_attachment, Nat.not_lt.mpr hs, Nat.not_le.mpr hlt]
      omega

def cfgC2 : QueueConfig := { max_queue_size := 2, max_attachment_size := 10 }

def aC2 : EmailAttachmentData :=
  { task_id := "t1", email_id := "e1", email_subject := "s"
    email_sender := "n", email_sender_email := "n at corp"
    email_content := "", email_received_date := ""
    attachment_id := "x", attachment_filename := "f.pdf"
    attachment_content := [1], attachment_mime_type := "application/pdf"
    attachment_size := 10, created_at := "now" }

/-- Witness for C2: a queue one below capacity accepts a maximal-size
item and ends exactly at capacity. -/
theorem enqueue_admission_boundary_witness :
    (enqueue_attachment cfgC2 [aC2.to_dict] aC2).1 = true ∧
    (enqueue_attachment cfgC2 [aC2.to_dict] aC2).2.length = 2 :=
  (enqueue_admission_boundary cfgC2 [aC2.to_dict] aC2).2.2.2
    (by decide) (by simp [cfgC2]) (by decide)

/-- Claim C3: serializing an attachment record and deserializing it
recovers the binary content exactly, for every byte string. -/
theorem from_dict_to_dict_content (r : EmailAttachmentData)
    (h : ∀ b ∈ r.attachment_content, b < 256) :
    (EmailAttachmentData.from_dict r.to_dict).attachment_content
      = r.attachment_content := by
  simp [EmailAttachmentData.from_dict, EmailAttachmentData.to_dict,
    b64_roundtrip _ h]

def rC3 : EmailAttachmentData :=
  { task_id := "t2", email_id := "e2", email_subject := "s2"
    email_sender := "n2", email_sender_email := "n2 at corp"
    email_content := "body", email_received_date := "2025-01-01"
    attachment_id := "y", attachment_filename := "all.bin"
    attachment_content := List.range 256
    attachment_mime_type := "application/octet-stream"
    attachment_size := 256, created_at := "now" }

set_option maxRecDepth 4000 in
/-- Witness for C3 on content containing every byte value. -/
theorem from_dict_to_dict_content_witness :
    (EmailAttachmentData.from_dict rC3.to_dict).attachment_content
      = List.range 256 := by
  have h : ∀ b ∈ rC3.attachment_content, b < 256 := by
    intro b hb
    have hb' : b ∈ List.range 256 := by simpa [rC3] using hb
    exact List.mem_range.mp hb'
  have := from_dict_to_dict_content rC3 h
  simpa [rC3] using this

/-- Claim C4: with `max_retries = 3` and a pipeline failing on every
attempt, `_run_pipeline` makes exactly 4 attempts with strictly
increasing sleeps (2, 4, 8 seconds) between consecutive attempts, and
ends by raising (no success). -/
theorem run_pipeline_retry_exhaustion (fails : Nat → Bool)
    (h : ∀ n, fails n = true) :
    (run_pipeline fails 3).attempts = 4 ∧
    (run_pipeline fails 3).delays = [2, 4, 8] ∧
    List.Chain' (· < ·) (run_pipeline fails 3).delays ∧
    (run_pipeline fails 3).success = false := by
  have e : run_pipeline fails 3 =
      { attempts := 4, delays := [2, 4, 8], success := false } := by
    simp [run_pipeline, runPipelineLoop, h]
  rw [e]
  refine ⟨rfl, rfl, ?_, rfl⟩
  simp

/-- Witness for C4 with the constantly failing pipeline. -/
theorem run_pipeline_retry_exhaustion_witness :
    (run_pipeline (fun _ => true) 3).attempts = 4 ∧
    (run_pipeline (fun _ => true) 3).delays = [2, 4, 8] ∧
    List.Chain' (· < ·) (run_pipeline (fun _ => true) 3).delays ∧
    (run_pipeline (fun _ => true) 3).success = false :=
  run_pipeline_retry_exhaustion (fun _ => true) (fun _ => rfl)

/-- Claim C9: whenever the worker managed to materialize the
attachment to its temporary file, the file is gone when
`_process_attachment` returns — on pipeline success, on a pipeline
exception, and regardless of whether saving the results succeeded. -/
theorem process_attachment_temp_cleanup (env : WorkerEnv)
    (h : env.saveTempOk = true) :
    (process_attachment env).2.tempExists = false := by
  cases hp : env.pipelineRaises <;> cases hs : env.saveResultsOk <;>
    simp [process_attachment, h, hp, hs, unlinkTemp, save_processing_results]

def envC9 : WorkerEnv :=
  { saveTempOk := true, pipelineRaises := true, saveResultsOk := false }

/-- Witness for C9 on the pipeline-exception path. -/
theorem process_attachment_temp_cleanup_witness :
    (process_attachment envC9).2.tempExists = false :=
  process_attachment_temp_cleanup envC9 rfl

/-- Claim C10: with no access token held, `get_new_messages` returns
the empty list without touching the client state (hence the persisted
cursor), `get_attachments` returns the empty list, and
`download_attachment` returns empty bytes. -/
theorem no_token_empty_results (st : ClientState) (groups : List String)
    (script : List FetchResult) (attResp : Except Unit (List AttRef))
    (dlResp : Except Unit (List Nat)) (h : st.accessToken = none) :
    get_new_messages st groups script = ([], st) ∧
    get_attachments st attResp = ([] : List AttRef) ∧
    download_attachment st dlResp = [] := by
  refine ⟨?_, ?_, ?_⟩ <;>
    simp [get_new_messages, get_attachments, download_attachment, h]

def stC10 : ClientState :=
  { accessToken := none, deltaLink := some "d", deltaFile := some "d" }

/-- Witness for C10 at a concrete token-less state. -/
theorem no_token_empty_results_witness :
    get_new_messages stC10 ["corp"] [.fetchError] = ([], stC10) ∧
    get_attachments stC10 (Except.ok [({ name := "a.pdf", id := "1" } : AttRef)])
      = ([] : List AttRef) ∧
    download_attachment stC10 (Except.ok [7, 8]) = [] :=
  no_token_empty_results stC10 ["corp"] [.fetchError] _ _ rfl

lemma lpush_fold :
    ∀ (valid : List EmailAttachmentData) (q : List AttachmentDict),
    valid.foldl (fun l a => a.to_dict :: l) q
      = (valid.map EmailAttachmentData.to_dict).reverse ++ q := by
  intro valid
  induction valid with
  | nil => intro q; simp
  | cons a t ih =>
    intro q
    rw [List.foldl_cons, ih]
    simp

lemma individual_fold (cfg : QueueConfig) :
    ∀ (valid : List EmailAttachmentData) (q : List AttachmentDict) (n0 : Nat),
    (∀ a ∈ valid, a.attachment_size ≤ cfg.max_attachment_size) →
    valid.foldl (enqueueStep cfg) (n0, q)
      = (n0 + min valid.length (cfg.max_queue_size - q.length),
         ((valid.take (min valid.length (cfg.max_queue_size - q.length))).map
            EmailAttachmentData.to_dict).reverse ++ q) := by
  intro valid
  induction valid with
  | nil => intro q n0 h; simp
  | cons a t ih =>
    intro q n0 h
    have hsz : a.attachment_size ≤ cfg.max_attachment_size := h a (by simp)
    have ht : ∀ b ∈ t, b.attachment_size ≤ cfg.max_attachment_size :=
      fun b hb => h b (by simp [hb])
    rw [List.foldl_cons]
    by_cases hq : cfg.max_queue_size ≤ q.length
    · have he : enqueue_attachment cfg q a = (false, q) := by
        simp [enqueue_attachment, Nat.not_lt.mpr hsz, hq]
      have hmin : min (t.length + 1) (cfg.max_queue_size - q.length) = 0 := by
        omega
      have hmin' : min t.length (cfg.max_queue_size - q.length) = 0 := by
        omega
      have hstep : enqueueStep cfg (n0, q) a = (n0, q) := by
        simp [enqueueStep, he]
      rw [hstep, ih q n0 ht]
      simp [hmin, hmin']
    · have hlt : q.length < cfg.max_queue_size := Nat.not_le.mp hq
      have he : enqueue_attachment cfg q a = (true, a.to_dict :: q) := by
        simp [enqueue_attachment, Nat.not_lt.mpr hsz, hq]
      have hstep : enqueueStep cfg (n0, q) a = (n0 + 1, a.to_dict :: q) := by
        simp [enqueueStep, he]
      rw [hstep, ih (a.to_dict :: q) (n0 + 1) ht]
      simp only [List.length_cons]
      have hk : min (t.length + 1) (cfg.max_queue_size - q.length)
          = min t.length (cfg.max_queue_size - (q.length + 1)) + 1 := by
        omega
      rw [hk, List.take_succ_cons]
      simp only [Prod.mk.injEq, List.map_cons, List.reverse_cons,
        List.append_assoc, List.singleton_append]
      exact ⟨by omega, trivial⟩

/-- Claim C6: `enqueue_multiple_attachments` validates each record's
size independently; when the whole batch of valid records would push
the queue past `max_queue_size` it enqueues them one by one (each
subject to the size and queue-length rules), filling the queue up to
capacity instead of rejecting the batch; otherwise it pipelines all
valid records.  The returned count is exactly the number of records
actually appended. -/
theorem enqueue_multiple_batch_fallback (cfg : QueueConfig)
    (q : List AttachmentDict) (atts : List EmailAttachmentData) :
    enqueue_multiple_attachments cfg q atts
      = (let valid := atts.filter
            (fun a => a.attachment_size ≤ cfg.max_attachment_size)
         let n := if q.length + valid.length ≤ cfg.max_queue_size
                  then valid.length else cfg.max_queue_size - q.length
         (n, ((valid.take n).map EmailAttachmentData.to_dict).reverse ++ q)) ∧
    (enqueue_multiple_attachments cfg q atts).2.length
      = q.length + (enqueue_multiple_attachments cfg q atts).1 := by
  have hval : ∀ a ∈ atts.filter
      (fun a => a.attachment_size ≤ cfg.max_attachment_size),
      a.attachment_size ≤ cfg.max_attachment_size := by
    intro a ha
    have := List.mem_filter.mp ha
    simpa using this.2
  have main : enqueue_multiple_attachments cfg q atts
      = (let valid := atts.filter
            (fun a => a.attachment_size ≤ cfg.max_attachment_size)
         let n := if q.length + valid.length ≤ cfg.max_queue_size
                  then valid.length else cfg.max_queue_size - q.length
         (n, ((valid.take n).map EmailAttachmentData.to_dict).reverse ++ q)) := by
    simp only [enqueue_multiple_attachments]
    by_cases hov : q.length + (atts.filter
        (fun a => a.attachment_size ≤ cfg.max_attachment_size)).length
        > cfg.max_queue_size
    · rw [if_pos hov, individual_fold cfg _ q 0 hval]
      have hmin : min (atts.filter
          (fun a => a.attachment_size ≤ cfg.max_attachment_size)).length
          (cfg.max_queue_size - q.length) = cfg.max_queue_size - q.length := by
        omega
      simp only [hmin, Nat.zero_add]
      rw [if_neg (by omega)]
    · rw [if_neg hov, lpush_fold]
      rw [if_pos (by omega), List.take_length]
  refine ⟨main, ?_⟩
  rw [main]
  simp only []
  by_cases hov : q.length + (atts.filter
      (fun a => a.attachment_size ≤ cfg.max_attachment_size)).length
      ≤ cfg.max_queue_size
  · simp [hov]
    omega
  · simp only [if_neg hov]
    simp [List.length_take]
    omega

lemma directLoop_eq (fileTypes : List String) (env : MonEnv) :
    ∀ atts : List AttRef,
    directLoop fileTypes env atts
      = ((atts.filter (qualifies fileTypes env)).map
           (fun a => (uniqueName env a, env.download a)),
         (atts.filter (qualifies fileTypes env)).map (mkProcessedInfo env),
         (atts.filter (qualifies fileTypes env)).length) := by
  intro atts
  induction atts with
  | nil => simp [directLoop]
  | cons a t ih =>
    by_cases hp : passesFilter fileTypes a
    · by_cases hd : (env.download a).isEmpty
      · have hq : qualifies fileTypes env a = false := by
          simp [qualifies, hp, hd]
        simp [directLoop, hp, hd, hq, ih]
      · have hq : qualifies fileTypes env a = true := by
          simp [qualifies, hp, hd]
        simp [directLoop, hp, hd, hq, ih]
    · have hq : qualifies fileTypes env a = false := by
        simp [qualifies, hp]
      simp [directLoop, hp, hq, ih]

lemma process_message_mp (cfg : MonConfig) (env : CycleEnv) (m : GraphMsg)
    (acc : Stats × List AttachmentDict × List DirectOutcome) :
    (process_message cfg env m acc).1.messages_processed
      = acc.1.messages_processed := by
  cases h1 : (!m.hasAttachments) with
  | true => simp [process_message, h1]
  | false =>
    cases h2 : (env.attachmentsOf m.id).isEmpty with
    | true => simp [process_message, h1, h2]
    | false =>
      cases h3 : cfg.useRedisQueue with
      | true => simp [process_message, h1, h2, h3]
      | false => simp [process_message, h1, h2, h3]

lemma foldl_pm_mp (cfg : MonConfig) (env : CycleEnv) :
    ∀ (msgs : List GraphMsg)
      (acc : Stats × List AttachmentDict × List DirectOutcome),
    (msgs.foldl (fun acc m => process_message cfg env m acc) acc).1.messages_processed
      = acc.1.messages_processed := by
  intro msgs
  induction msgs with
  | nil => intro acc; rfl
  | cons m t ih =>
    intro acc
    rw [List.foldl_cons, ih, process_message_mp]

lemma process_emails_mp (cfg : MonConfig) (cenv : CycleEnv)
    (st : MonitorState) (hauth : cenv.authOk = true) :
    (process_emails cfg cenv st).1.stats.messages_processed
      = st.stats.messages_processed
        + (get_new_messages { st.client with accessToken := some "token" }
            cfg.emailGroups cenv.script).1.length := by
  simp only [process_emails, hauth, Bool.not_true, Bool.false_eq_true,
    if_false]
  by_cases hm : (get_new_messages { st.client with accessToken := some "token" }
      cfg.emailGroups cenv.script).1.isEmpty
  · have h0 : (get_new_messages { st.client with accessToken := some "token" }
        cfg.emailGroups cenv.script).1.length = 0 := by
      rw [List.isEmpty_iff] at hm
      simp [hm]
    simp only [hm, if_pos rfl, if_true]
    simp [foldl_pm_mp, h0]
  · simp only [hm]
    simp [foldl_pm_mp]

lemma buildAttachmentTasks_eq (fileTypes : List String) (env : MonEnv)
    (ctx : MsgCtx) :
    ∀ atts : List AttRef,
    buildAttachmentTasks fileTypes env ctx atts
      = (atts.filter (qualifies fileTypes env)).map (mkTask env ctx) := by
  intro atts
  induction atts with
  | nil => simp [buildAttachmentTasks]
  | cons a t ih =>
    by_cases hp : passesFilter fileTypes a
    · by_cases hd : (env.download a).isEmpty
      · have hq : qualifies fileTypes env a = false := by
          simp [qualifies, hp, hd]
        simp [buildAttachmentTasks, hp, hd, hq, ih]
      · have hq : qualifies fileTypes env a = true := by
          simp [qualifies, hp, hd]
        simp [buildAttachmentTasks, hp, hd, hq, ih]
    · have hq : qualifies fileTypes env a = false := by
        simp [qualifies, hp]
      simp [buildAttachmentTasks, hp, hq, ih]

lemma enqueue_multiple_spec (cfg : QueueConfig) (q : List AttachmentDict)
    (atts : List EmailAttachmentData) :
    enqueue_multiple_attachments cfg q atts
      = (let valid := atts.filter
            (fun a => a.attachment_size ≤ cfg.max_attachment_size)
         let n := if q.length + valid.length ≤ cfg.max_queue_size
                  then valid.length else cfg.max_queue_size - q.length
         (n, ((valid.take n).map EmailAttachmentData.to_dict).reverse ++ q)) := by
  have hval : ∀ a ∈ atts.filter
      (fun a => a.attachment_size ≤ cfg.max_attachment_size),
      a.attachment_size ≤ cfg.max_attachment_size := by
    intro a ha
    have := List.mem_filter.mp ha
    simpa using this.2
  simp only [enqueue_multiple_attachments]
  by_cases hov : q.length + (atts.filter
      (fun a => a.attachment_size ≤ cfg.max_attachment_size)).length
      > cfg.max_queue_size
  · rw [if_pos hov, individual_fold cfg _ q 0 hval]
    have hmin : min (atts.filter
        (fun a => a.attachment_size ≤ cfg.max_attachment_size)).length
        (cfg.max_queue_size - q.length) = cfg.max_queue_size - q.length := by
      omega
    simp only [hmin, Nat.zero_add]
    rw [if_neg (by omega)]
  · rw [if_neg hov, lpush_fold]
    rw [if_pos (by omega), List.take_length]

/-- Claim C5: an attachment whose download yields empty bytes is
skipped in both execution modes — in direct mode it contributes no
saved file and no processed record, and in queue mode it contributes
no record to the batch handed to the Redis enqueue, so nothing derived
from it ever enters the queue — while every other qualifying
attachment of the message is still handled (processed directly, or
built into the enqueued batch); and one cycle adds the number of
fetched messages to `messages_processed`, i.e. counts each message
exactly once. -/
theorem direct_empty_download_isolation
    (fileTypes : List String) (env : MonEnv) (msgId : String)
    (atts : List AttRef) (a : AttRef) (_ha : a ∈ atts)
    (hempty : env.download a = []) :
    qualifies fileTypes env a = false ∧
    (process_attachments_directly fileTypes env msgId atts).processedAttachments
      = (atts.filter (qualifies fileTypes env)).map (mkProcessedInfo env) ∧
    (process_attachments_directly fileTypes env msgId atts).savedFiles
      = (atts.filter (qualifies fileTypes env)).map
          (fun b => (uniqueName env b, env.download b)) ∧
    (∀ b ∈ atts, qualifies fileTypes env b = true →
      mkProcessedInfo env b
        ∈ (process_attachments_directly fileTypes env msgId atts).processedAttachments) ∧
    (∀ ctx : MsgCtx,
      buildAttachmentTasks fileTypes env ctx atts
        = (atts.filter (qualifies fileTypes env)).map (mkTask env ctx)) ∧
    (∀ (ctx : MsgCtx) (b : AttRef), b ∈ atts →
      qualifies fileTypes env b = true →
      mkTask env ctx b ∈ buildAttachmentTasks fileTypes env ctx atts) ∧
    (∀ (qcfg : QueueConfig) (ctx : MsgCtx) (q : List AttachmentDict),
      ∃ n, (enqueue_attachments_to_redis qcfg fileTypes env ctx atts q).2.1
        = (((((atts.filter (qualifies fileTypes env)).map (mkTask env ctx)).filter
              (fun t => t.attachment_size ≤ qcfg.max_attachment_size)).take n).map
            EmailAttachmentData.to_dict).reverse ++ q) ∧
    (∀ (cfg : MonConfig) (cenv : CycleEnv) (st : MonitorState),
      cenv.authOk = true →
      (process_emails cfg cenv st).1.stats.messages_processed
        = st.stats.messages_processed
          + (get_new_messages { st.client with accessToken := some "token" }
              cfg.emailGroups cenv.script).1.length) := by
  have hq : qualifies fileTypes env a = false := by
    simp [qualifies, hempty]
  have hL := directLoop_eq fileTypes env atts
  refine ⟨hq, ?_, ?_, ?_, ?_, ?_, ?_, ?_⟩
  · simp [process_attachments_directly, hL]
  · simp [process_attachments_directly, hL]
  · intro b hb hqb
    simp only [process_attachments_directly, hL]
    exact List.mem_map_of_mem _ (List.mem_filter.mpr ⟨hb, by simp [hqb]⟩)
  · intro ctx
    exact buildAttachmentTasks_eq fileTypes env ctx atts
  · intro ctx b hb hqb
    rw [buildAttachmentTasks_eq]
    exact List.mem_map_of_mem _ (List.mem_filter.mpr ⟨hb, by simp [hqb]⟩)
  · intro qcfg ctx q
    by_cases ht : (buildAttachmentTasks fileTypes env ctx atts).isEmpty = true
    · refine ⟨0, ?_⟩
      simp [enqueue_attachments_to_redis, ht]
    · refine ⟨if q.length + (((atts.filter (qualifies fileTypes env)).map
            (mkTask env ctx)).filter
            (fun t => t.attachment_size ≤ qcfg.max_attachment_size)).length
          ≤ qcfg.max_queue_size
        then (((atts.filter (qualifies fileTypes env)).map
            (mkTask env ctx)).filter
            (fun t => t.attachment_size ≤ qcfg.max_attachment_size)).length
        else qcfg.max_queue_size - q.length, ?_⟩
      simp only [enqueue_attachments_to_redis, ht, Bool.false_eq_true, if_false]
      rw [buildAttachmentTasks_eq fileTypes env ctx atts,
        enqueue_multiple_spec]
  · intro cfg cenv st hauth
    exact process_emails_mp cfg cenv st hauth

def envC5 : MonEnv :=
  { download := fun a => if a.name = "b.pdf" then [] else [1]
    mimeGuess := fun _ => none
    dateStr := "2025-02-03"
    fileUuid := fun _ => "11112222"
    taskUuid := fun _ => "33334444"
    summaryUuid := "55556666"
    nowIso := "2025-02-03T00:00:00" }

def attsC5 : List AttRef :=
  [{ name := "a.pdf", id := "1" }, { name := "b.pdf", id := "2" },
   { name := "c.pdf", id := "3" }]

/-- Witness for C5: of three attachments the second downloads empty
bytes; exactly the first and third are processed. -/
theorem direct_empty_download_isolation_witness :
    (process_attachments_directly [] envC5 "m15" attsC5).processedAttachments
      = [mkProcessedInfo envC5 { name := "a.pdf", id := "1" },
         mkProcessedInfo envC5 { name := "c.pdf", id := "3" }] := by
  rw [(direct_empty_download_isolation [] envC5 "m15" attsC5
      { name := "b.pdf", id := "2" } (by decide) (by decide)).2.1]
  rfl

def envC7 : MonEnv :=
  { download := fun _ => [1, 2, 3]
    mimeGuess := fun _ => none
    dateStr := "2025-01-01"
    fileUuid := fun _ => "abcd1234"
    taskUuid := fun _ => "efgh5678"
    summaryUuid := "ijkl9012"
    nowIso := "2025-01-01T00:00:00" }

def attC7 : AttRef := { name := "invoice.pdf", id := "att1" }

/-- Counterexample to C7 as stated: in direct mode an attachment is
downloaded and saved, but the handler performs no content extraction —
its record carries the literal `processing_method = "file_save"` — and
among the persisted artifacts (the saved file and the processing
summary) there is none whose name contains `.processed`: no
`ExtractedContent` sidecar exists. -/
theorem process_directly_no_sidecar_cex :
    (process_attachments_directly [] envC7 "msg00001" [attC7]).processedCount
      = 1 ∧
    ¬ (∀ p ∈ (process_attachments_directly [] envC7 "msg00001"
          [attC7]).processedAttachments,
        p.processing_method ≠ "file_save" ∨
        ∃ s ∈ directArtifactNames
            (process_attachments_directly [] envC7 "msg00001" [attC7]),
          isSubstr ".processed".toList s.toList = true) := by
  constructor
  · rfl
  · decide

/-- Claim C7 (amended): in direct mode every qualifying attachment
(extension admitted, non-empty download) is saved under the uniquely
generated name `date_uuid_originalname`; no content extraction is run —
each processed record carries `processing_method = "file_save"` and no
errors — and a per-message processing-summary artifact is persisted
exactly when at least one attachment was processed. -/
theorem process_directly_file_save
    (fileTypes : List String) (env : MonEnv) (msgId : String)
    (atts : List AttRef) :
    (process_attachments_directly fileTypes env msgId atts).savedFiles
      = (atts.filter (qualifies fileTypes env)).map
          (fun b => (uniqueName env b, env.download b)) ∧
    (∀ p ∈ (process_attachments_directly fileTypes env msgId
        atts).processedAttachments,
      p.processing_method = "file_save" ∧ p.errors = []) ∧
    ((process_attachments_directly fileTypes env msgId atts).summaryArtifact
      = if (process_attachments_directly fileTypes env msgId
            atts).processedCount > 0 then
          some (env.dateStr ++ "_" ++ env.summaryUuid ++
            "_processing_summary_" ++ msgId.take 8 ++ ".json")
        else none) := by
  have hL := directLoop_eq fileTypes env atts
  refine ⟨?_, ?_, ?_⟩
  · simp [process_attachments_directly, hL]
  · intro p hp
    simp only [process_attachments_directly, hL] at hp
    obtain ⟨b, _hb, hpb⟩ := List.mem_map.mp hp
    rw [← hpb]
    exact ⟨rfl, rfl⟩
  · rfl

/-- Witness for C7 (amended) at a concrete attachment: its processed
record indeed carries `processing_method = "file_save"`. -/
theorem process_directly_file_save_witness :
    (mkProcessedInfo envC7 attC7).processing_method = "file_save" ∧
    (mkProcessedInfo envC7 attC7).errors = [] :=
  (process_directly_file_save [] envC7 "msg00001" [attC7]).2.1
    (mkProcessedInfo envC7 attC7) (by decide)

def envC8 : ReaderEnv :=
  { tempWrite := .ok ()
    customExts := []
    customRun := .error "unused"
    builtinRun := .error "unused"
    fallbackRun := .error "boom" }

/-- Counterexample to C8 as stated: on a failing processing run,
`read_attachment` records the failure in the result's top-level
`errors` list; the `metadata` mapping is returned unchanged, so no
`metadata.error` entry exists. -/
theorem read_attachment_metadata_error_cex :
    (read_attachment envC8 [] "a.xyz" []).processed_content = none ∧
    (read_attachment envC8 [] "a.xyz" []).errors
      = ["Processing error: boom"] ∧
    ¬ ((read_attachment envC8 [] "a.xyz" []).metadata.any
        (fun kv => kv.1 = "error") = true) := by
  refine ⟨rfl, rfl, ?_⟩
  decide

/-- Claim C8 (amended): `read_attachment` always returns a result
record for every input and environment outcome — it never propagates
an exception.  The input metadata is passed through unchanged; any
internal failure (temporary-file write or processor run) is captured
as a `"Processing error: ..."` entry in the result's `errors` list
with `processed_content = none`, while a successful run stores the
extracted content and the dispatched method with no errors. -/
theorem read_attachment_error_capture (env : ReaderEnv)
    (data : List Nat) (filename : String)
    (metadata : List (String × String)) :
    (read_attachment env data filename metadata).metadata = metadata ∧
    (read_attachment env data filename metadata).filename = filename ∧
    (read_attachment env data filename metadata).file_size = data.length ∧
    (match env.tempWrite with
     | .error e =>
       (read_attachment env data filename metadata).errors
           = ["Processing error: " ++ e] ∧
       (read_attachment env data filename metadata).processed_content = none
     | .ok _ =>
       match readDispatch env filename with
       | (.error e, _) =>
         (read_attachment env data filename metadata).errors
             = ["Processing error: " ++ e] ∧
         (read_attachment env data filename metadata).processed_content = none
       | (.ok c, method) =>
         (read_attachment env data filename metadata).errors = [] ∧
         (read_attachment env data filename metadata).processed_content
             = some c ∧
         (read_attachment env data filename metadata).processing_method
             = method) := by
  cases htw : env.tempWrite with
  | error e => simp [read_attachment, htw]
  | ok u =>
    cases hrd : readDispatch env filename with
    | mk res method =>
      cases res with
      | error e => simp [read_attachment, htw, hrd]
      | ok c => simp [read_attachment, htw, hrd]

end FileProc
